import Mathlib

/-!
Shallow embedding of src/lib/matchGenerator.ts (classes AIMatchGenerator and
MatchGenerator) together with the Player and Match records of src/app/page.tsx.

Conventions of the embedding:
* JavaScript numbers that carry skill levels are embedded as rationals; play
  counts are naturals.
* The ES2019 Array.prototype.sort is stable; for the total preorders used by
  the source comparators the stable sort is unique, and we embed it as
  Mathlib's stable List.insertionSort over the non-strict relation
  "comparator result is not positive".
* The play-count Map is an insertion-ordered association list; Map.set
  overwrites in place, Map.get falls back to 0 exactly as the source writes
  playCount.get(id) with a 0 default.
* The two external effects are passed in as parameters: the Groq HTTP call
  becomes an argument of type Except String GroqMatchResponse (error covers a
  transport failure, a non-success status and a body JSON.parse cannot read,
  all of which throw inside callGroqAPI), and Math.random for toss outcomes
  becomes a function from the match index to a Toss value.
* Mutation of the class fields is explicit state passing: each method returns
  the updated AIMatchGenerator record next to its result.
-/

attribute [local semireducible] Rat.add Rat.mul Rat.inv Rat.sub

/-- Toss outcome as produced for the tossWinner field of a match. -/
inductive Toss where
  | A
  | B
deriving DecidableEq, Repr

/-- Game mode of the generator, the literal union type of the source. -/
inductive Mode where
  | Singles
  | Teams
deriving DecidableEq, Repr

/-- Player record of src/app/page.tsx. -/
structure Player where
  id : String
  name : String
  skillLevel : ℚ
deriving DecidableEq, Repr

/-- Match record of src/app/page.tsx; optional fields are Options. -/
structure Match where
  id : Nat
  playersPlaying : List Player
  teamA : Option (List Player)
  teamB : Option (List Player)
  doubleSider : Option Player
  tossWinner : Option Toss
  playerSequence : Option (List Player)
  playersOut : List Player
  mode : Mode
deriving DecidableEq, Repr

/-- Reads an entry of the play-count map; absent keys read as 0, exactly as
the source writes playCount.get(id) with a 0 fallback. -/
def getCount (m : List (String × Nat)) (id : String) : Nat :=
  match m.lookup id with
  | some n => n
  | none => 0

/-- Writes an entry of the play-count map, overwriting in place when the key
is present and appending otherwise, as Map.set does. -/
def setCount : List (String × Nat) → String → Nat → List (String × Nat)
  | [], id, v => [(id, v)]
  | (k, w) :: rest, id, v =>
    if k = id then (id, v) :: rest else (k, w) :: setCount rest id v

/-- Raw shape of one match entry of the external response after JSON parsing.
Fields the parser dereferences without checking are Options: none models a
missing (undefined) field, whose dereference throws in the source. -/
structure RawGroqMatch where
  matchNumber : Nat
  teamA : Option (List String)
  teamB : Option (List String)
  doubleSider : Option String
  playersOut : Option (List String)
  tossWinner : Option Toss
deriving DecidableEq, Repr

/-- Raw external response: the GroqMatchResponse interface of the source. The
single field is called matches there; that word is a Lean keyword, so the
embedding calls it matchList. -/
structure GroqMatchResponse where
  matchList : List RawGroqMatch
deriving DecidableEq, Repr

/-- State and configuration of one AIMatchGenerator instance: the private
fields of the class. -/
structure AIMatchGenerator where
  players : List Player
  mode : Mode
  teamSize : Nat
  doubleSider : Bool
  playCount : List (String × Nat)
  previousMatches : List Match
  groqApiKey : String
deriving DecidableEq, Repr

/-- Constructor of AIMatchGenerator: stores the configuration and initializes
the play count of every roster player to 0 (the TS defaults are teamSize 2,
doubleSider false and the environment key; callers pass them explicitly
here). -/
def AIMatchGenerator.init (players : List Player) (mode : Mode)
    (teamSize : Nat) (doubleSider : Bool) (groqApiKey : String) :
    AIMatchGenerator :=
  { players := players
    mode := mode
    teamSize := teamSize
    doubleSider := doubleSider
    playCount := players.foldl (fun m p => setCount m p.id 0) []
    previousMatches := []
    groqApiKey := groqApiKey }

/-- Mean skill level of the roster, the avgSkillLevel of
selectPlayersForMatch. Division by a zero length (empty roster) yields 0 in
this embedding where the source yields NaN; in both cases the selection on an
empty roster returns the empty list, so no theorem depends on the
difference. -/
def avgSkill (g : AIMatchGenerator) : ℚ :=
  (g.players.map Player.skillLevel).sum / (g.players.length : ℚ)

/-- Non-strict preorder of the fairness comparator in selectPlayersForMatch:
fewer games played first, ties ordered by distance of the skill level from
the roster mean. Sorting stably by this relation is what the stable JS sort
with that comparator does. -/
def fairLE (g : AIMatchGenerator) (a b : Player) : Prop :=
  getCount g.playCount a.id < getCount g.playCount b.id ∨
    (getCount g.playCount a.id = getCount g.playCount b.id ∧
      |a.skillLevel - avgSkill g| ≤ |b.skillLevel - avgSkill g|)

instance (g : AIMatchGenerator) : DecidableRel (fairLE g) := fun a b => by
  unfold fairLE
  exact inferInstance

instance (g : AIMatchGenerator) : IsTotal Player (fairLE g) := by
  constructor
  intro a b
  unfold fairLE
  rcases Nat.lt_trichotomy (getCount g.playCount a.id)
      (getCount g.playCount b.id) with h | h | h
  · exact Or.inl (Or.inl h)
  · rcases le_total |a.skillLevel - avgSkill g| |b.skillLevel - avgSkill g|
      with h2 | h2
    · exact Or.inl (Or.inr ⟨h, h2⟩)
    · exact Or.inr (Or.inr ⟨h.symm, h2⟩)
  · exact Or.inr (Or.inl h)

instance (g : AIMatchGenerator) : IsTrans Player (fairLE g) := by
  constructor
  intro a b c hab hbc
  unfold fairLE at *
  rcases hab with hab | ⟨hab1, hab2⟩
  · rcases hbc with hbc | ⟨hbc1, hbc2⟩
    · exact Or.inl (hab.trans hbc)
    · exact Or.inl (hbc1 ▸ hab)
  · rcases hbc with hbc | ⟨hbc1, hbc2⟩
    · exact Or.inl (hab1 ▸ hbc)
    · exact Or.inr ⟨hab1.trans hbc1, hab2.trans hbc2⟩

/-- Non-strict preorder of the descending skill comparator
(a, b) => b.skillLevel - a.skillLevel used on team pools: higher skill
first. -/
def skillGE (a b : Player) : Prop :=
  b.skillLevel ≤ a.skillLevel

instance : DecidableRel skillGE := fun a b => by
  unfold skillGE
  exact inferInstance

instance : IsTotal Player skillGE :=
  ⟨fun a b => (le_total b.skillLevel a.skillLevel).imp id id⟩

instance : IsTrans Player skillGE :=
  ⟨fun _ _ _ hab hbc => le_trans hbc hab⟩

/-- selectPlayersForMatch: stable sort of the full roster by the fairness
comparator, then the first min(requiredPlayers, length) entries. Pure, as in
the source (the roster is copied before sorting). -/
def AIMatchGenerator.selectPlayersForMatch (g : AIMatchGenerator)
    (requiredPlayers : Nat) : List Player :=
  let playersByFairness := List.insertionSort (fairLE g) g.players
  let selectedCount := min requiredPlayers playersByFairness.length
  playersByFairness.take selectedCount

/-- rotateArray: cyclic left rotation by offset mod length, the two slices of
the source concatenated; the empty array is returned unchanged. -/
def rotateArray {α : Type} (array : List α) (offset : Nat) : List α :=
  if array.length = 0 then array
  else
    let normalizedOffset := offset % array.length
    array.drop normalizedOffset ++ array.take normalizedOffset

/-- Distribution loop of generateSingleTeamMatch over the descending-skill
pool: an even index joins teamA unless teamA already holds teamSize players
(then teamB), an odd index joins teamB unless teamB is full (then teamA). -/
def snakeAux (teamSize : Nat) :
    Nat → List Player → List Player → List Player →
      List Player × List Player
  | _, teamA, teamB, [] => (teamA, teamB)
  | index, teamA, teamB, p :: rest =>
    if index % 2 = 0 then
      if teamA.length < teamSize then
        snakeAux teamSize (index + 1) (teamA ++ [p]) teamB rest
      else
        snakeAux teamSize (index + 1) teamA (teamB ++ [p]) rest
    else
      if teamB.length < teamSize then
        snakeAux teamSize (index + 1) teamA (teamB ++ [p]) rest
      else
        snakeAux teamSize (index + 1) (teamA ++ [p]) teamB rest

/-- Tests whether the optional double-sider has the same id as a player, the
condition player.id === doubleSiderPlayer?.id of the play-count updates. -/
def dsHit (dsOpt : Option Player) (p : Player) : Bool :=
  match dsOpt with
  | some ds => p.id == ds.id
  | none => false

/-- Play-count bookkeeping loop shared (verbatim in the source) by the three
generation paths: for each listed player, read the current count with a 0
fallback and write back the count plus that player's increment. -/
def applyIncs (inc : Player → Nat) :
    List (String × Nat) → List Player → List (String × Nat)
  | m, [] => m
  | m, player :: rest =>
    applyIncs inc (setCount m player.id (getCount m player.id + inc player)) rest

/-- Required pool size of a Teams match for a given configuration, the
requiredPlayers expression of generateSingleTeamMatch (effectiveTeamSize is
the stored teamSize). -/
def requiredCountOf (g : AIMatchGenerator) : Nat :=
  if g.doubleSider then g.teamSize * 2 + 1 else g.teamSize * 2

/-- Pool selected for one deterministic Teams match, the selectedPlayers
binding of generateSingleTeamMatch. -/
def selectedOf (g : AIMatchGenerator) : List Player :=
  g.selectPlayersForMatch (requiredCountOf g)

/-- Team partition step of generateSingleTeamMatch: with the double-sider
enabled, the head of the descending-skill stable sort of the pool is the
double-sider, the pool entries sharing its id are filtered out, the rest is
sorted descending and distributed by the snake, and the double-sider is
appended to both teams; without it the whole pool is sorted and distributed.
The result packs teamA, teamB and the optional double-sider. The empty match
branch is unreachable for a nonempty roster; there the source throws (reading
.id of undefined). -/
def teamsOf (g : AIMatchGenerator) : List Player × List Player × Option Player :=
  if g.doubleSider then
    match List.insertionSort skillGE (selectedOf g) with
    | [] => (([] : List Player), ([] : List Player), (none : Option Player))
    | ds :: _ =>
      let regularPlayers := (selectedOf g).filter fun p => ¬ p.id = ds.id
      let sortedPlayers := List.insertionSort skillGE regularPlayers
      let tt := snakeAux g.teamSize 0 [] [] sortedPlayers
      (tt.1 ++ [ds], tt.2 ++ [ds], some ds)
  else
    let sortedPlayers := List.insertionSort skillGE (selectedOf g)
    let tt := snakeAux g.teamSize 0 [] [] sortedPlayers
    (tt.1, tt.2, (none : Option Player))

/-- Sit-out list of one deterministic Teams match: the roster players whose
id appears in no selected player, the playersOut binding of
generateSingleTeamMatch. -/
def playersOutOf (g : AIMatchGenerator) : List Player :=
  g.players.filter fun player =>
    ¬ (selectedOf g).any fun selected => selected.id == player.id

/-- generateSingleTeamMatch: selects the fairest pool, partitions it into two
teams, computes the sit-out list and applies the play-count increments (2 for
the double-sider, 1 for the other selected players). Returns the match next
to the updated state; only the playCount field changes here (the history push
happens in the calling loop). -/
def AIMatchGenerator.generateSingleTeamMatch (g : AIMatchGenerator)
    (matchNumber : Nat) (toss : Toss) : Match × AIMatchGenerator :=
  ({ id := matchNumber
     playersPlaying := selectedOf g
     teamA := some (teamsOf g).1
     teamB := some (teamsOf g).2.1
     doubleSider := (teamsOf g).2.2
     tossWinner := some toss
     playerSequence := none
     playersOut := playersOutOf g
     mode := g.mode },
   { g with
     playCount :=
       applyIncs
         (fun player =>
           if g.doubleSider && dsHit (teamsOf g).2.2 player then 2 else 1)
         g.playCount (selectedOf g) })

/-- Loop body of generateTeamsMatchesFallback: generates matches i+1, i+2,
... and pushes each onto the history. -/
def fallbackAux (toss : Nat → Toss) :
    Nat → Nat → AIMatchGenerator → List Match × AIMatchGenerator
  | 0, _, g => ([], g)
  | n + 1, i, g =>
    let mg := g.generateSingleTeamMatch (i + 1) (toss i)
    let g1 := { mg.2 with previousMatches := mg.2.previousMatches ++ [mg.1] }
    let rest := fallbackAux toss n (i + 1) g1
    (mg.1 :: rest.1, rest.2)

/-- generateTeamsMatchesFallback: the deterministic batch, one
generateSingleTeamMatch per requested match, ids 1..numberOfMatches. -/
def AIMatchGenerator.generateTeamsMatchesFallback (g : AIMatchGenerator)
    (numberOfMatches : Nat) (toss : Nat → Toss) :
    List Match × AIMatchGenerator :=
  fallbackAux toss numberOfMatches 0 g

/-- Loop body of generateSinglesMatches: arguments are the remaining count,
the 0-based match index and the current rotationOffset. -/
def singlesAux :
    Nat → Nat → Nat → AIMatchGenerator → List Match × AIMatchGenerator
  | 0, _, _, g => ([], g)
  | n + 1, i, rotationOffset, g =>
    let rotatedPlayers := rotateArray g.players rotationOffset
    let m : Match :=
      { id := i + 1
        playersPlaying := rotatedPlayers
        teamA := none
        teamB := none
        doubleSider := none
        tossWinner := none
        playerSequence := some rotatedPlayers
        playersOut := []
        mode := g.mode }
    let newPlayCount := applyIncs (fun _ => 1) g.playCount g.players
    let g1 := { g with
      playCount := newPlayCount
      previousMatches := g.previousMatches ++ [m] }
    let rest := singlesAux n (i + 1) ((rotationOffset + 1) % g.players.length) g1
    (m :: rest.1, rest.2)

/-- generateSinglesMatches: rotationOffset starts at 0 and advances by 1
modulo the roster length after every match; every roster player is counted
once per match. -/
def AIMatchGenerator.generateSinglesMatches (g : AIMatchGenerator)
    (numberOfMatches : Nat) : List Match × AIMatchGenerator :=
  singlesAux numberOfMatches 0 0 g

/-- Deduplication preserving first occurrences. In the source the players
playing are collected through a JS Set of the objects of teamA and teamB;
since every such object is produced by players.find on an id, two of them are
the same object exactly when they are the same record, so identity-based and
value-based deduplication agree. -/
def dedupAux : List Player → List Player → List Player
  | _, [] => []
  | seen, p :: rest =>
    if p ∈ seen then dedupAux seen rest
    else p :: dedupAux (seen ++ [p]) rest

/-- Entry point of the deduplication with an empty seen set. -/
def dedupKeepFirst (l : List Player) : List Player :=
  dedupAux [] l

/-- Parse of one entry of the external response, including its play-count
bookkeeping and history push. A missing teamA, teamB or playersOut field
makes the source throw before any mutation of this iteration, which the
error results model; ids that match no roster player are silently dropped by
the map-then-filter(Boolean) idiom. -/
def parseOneGroqMatch (g : AIMatchGenerator) (matchData : RawGroqMatch) :
    Except String (Match × AIMatchGenerator) :=
  match matchData.teamA with
  | none => .error "TypeError: teamA is undefined"
  | some teamAIds =>
    match matchData.teamB with
    | none => .error "TypeError: teamB is undefined"
    | some teamBIds =>
      match matchData.playersOut with
      | none => .error "TypeError: playersOut is undefined"
      | some playersOutIds =>
        let teamAPlayers := teamAIds.filterMap fun id =>
          g.players.find? fun p => p.id == id
        let teamBPlayers := teamBIds.filterMap fun id =>
          g.players.find? fun p => p.id == id
        let doubleSiderPlayer :=
          match matchData.doubleSider with
          | some dsId =>
            if dsId = "" then none
            else g.players.find? fun p => p.id == dsId
          | none => none
        let playersOutList := playersOutIds.filterMap fun id =>
          g.players.find? fun p => p.id == id
        let playersPlaying := dedupKeepFirst (teamAPlayers ++ teamBPlayers)
        let newPlayCount := applyIncs
          (fun player =>
            if g.doubleSider && dsHit doubleSiderPlayer player then 2 else 1)
          g.playCount playersPlaying
        let m : Match :=
          { id := matchData.matchNumber
            playersPlaying := playersPlaying
            teamA := some teamAPlayers
            teamB := some teamBPlayers
            doubleSider := doubleSiderPlayer
            tossWinner := matchData.tossWinner
            playerSequence := none
            playersOut := playersOutList
            mode := g.mode }
        .ok (m, { g with
          playCount := newPlayCount
          previousMatches := g.previousMatches ++ [m] })

/-- Loop of parseGroqResponse. The state result is the mutation the loop has
performed up to the point of return: on an error it is the state after the
iterations that completed before the throw, exactly what the exception leaves
behind in the source. -/
def parseGroqLoop :
    AIMatchGenerator → List RawGroqMatch →
      Except String (List Match) × AIMatchGenerator
  | g, [] => (.ok [], g)
  | g, rm :: rest =>
    match parseOneGroqMatch g rm with
    | .error e => (.error e, g)
    | .ok mg =>
      let r := parseGroqLoop mg.2 rest
      match r.1 with
      | .error e => (.error e, r.2)
      | .ok ms => (.ok (mg.1 :: ms), r.2)

/-- parseGroqResponse over the whole raw response. -/
def AIMatchGenerator.parseGroqResponse (g : AIMatchGenerator)
    (groqResponse : GroqMatchResponse) :
    Except String (List Match) × AIMatchGenerator :=
  parseGroqLoop g groqResponse.matchList

/-- generateTeamsMatchesWithAI. The network call is externalized as
apiResult; its error case covers a missing credential, a transport failure, a
non-success HTTP status and a body JSON.parse rejects, all of which throw
inside callGroqAPI before parseGroqResponse runs. Every throw, whether from
the call or from the parse, lands in the catch and is answered by the
deterministic fallback, computed from the state as mutated so far. -/
def AIMatchGenerator.generateTeamsMatchesWithAI (g : AIMatchGenerator)
    (numberOfMatches : Nat) (apiResult : Except String GroqMatchResponse)
    (toss : Nat → Toss) : List Match × AIMatchGenerator :=
  match apiResult with
  | .error _ => g.generateTeamsMatchesFallback numberOfMatches toss
  | .ok groqResponse =>
    let r := parseGroqLoop g groqResponse.matchList
    match r.1 with
    | .ok ms => (ms, r.2)
    | .error _ => r.2.generateTeamsMatchesFallback numberOfMatches toss

/-- generateMatches: dispatch on the mode. -/
def AIMatchGenerator.generateMatches (g : AIMatchGenerator)
    (numberOfMatches : Nat) (apiResult : Except String GroqMatchResponse)
    (toss : Nat → Toss) : List Match × AIMatchGenerator :=
  match g.mode with
  | Mode.Singles => g.generateSinglesMatches numberOfMatches
  | Mode.Teams => g.generateTeamsMatchesWithAI numberOfMatches apiResult toss

/-- Models the default credential process.env.NEXT_PUBLIC_GROQ_API_KEY with
empty-string fallback; the stored key never influences the embedded behavior
because the network call itself is externalized. -/
def defaultGroqApiKey : String := ""

/-- Constructor of the backward-compatibility class MatchGenerator: it only
forwards to the AIMatchGenerator constructor with the default credential and
overrides no method. -/
def MatchGenerator.init (players : List Player) (mode : Mode)
    (teamSize : Nat) (doubleSider : Bool) : AIMatchGenerator :=
  AIMatchGenerator.init players mode teamSize doubleSider defaultGroqApiKey

/-- Spec-side reading of the double-sider choice, written from the claim
wording alone: the first player of the selection attaining the maximal skill
level, so that ties are broken by selection order. It is compared against the
head-of-stable-sort choice of the code. -/
def firstMaxBySkill : List Player → Option Player
  | [] => none
  | p :: rest =>
    match firstMaxBySkill rest with
    | none => some p
    | some q => if q.skillLevel > p.skillLevel then some q else some p



/-! Helper lemmas about the play-count map. -/

theorem lookup_cons_self (rest : List (String × Nat)) (k : String) (v : Nat) :
    ((k, v) :: rest).lookup k = some v := by
  simp [List.lookup]

theorem lookup_cons_ne (rest : List (String × Nat)) (k x : String) (v : Nat)
    (h : x ≠ k) : ((k, v) :: rest).lookup x = rest.lookup x := by
  have hb : (x == k) = false := beq_eq_false_iff_ne.mpr h
  simp [List.lookup, hb]

theorem getCount_setCount_self (m : List (String × Nat)) (k : String) (v : Nat) :
    getCount (setCount m k v) k = v := by
  induction m with
  | nil => simp [setCount, getCount, lookup_cons_self]
  | cons kv rest ih =>
    obtain ⟨k0, w⟩ := kv
    by_cases h : k0 = k
    · subst h
      simp [setCount, getCount, lookup_cons_self]
    · rw [setCount, if_neg h]
      unfold getCount
      rw [lookup_cons_ne _ _ _ _ (Ne.symm h)]
      exact ih

theorem getCount_setCount_ne (m : List (String × Nat)) (k x : String) (v : Nat)
    (h : x ≠ k) : getCount (setCount m k v) x = getCount m x := by
  induction m with
  | nil =>
    have hb : (x == k) = false := beq_eq_false_iff_ne.mpr h
    simp [setCount, getCount, List.lookup, hb]
  | cons kv rest ih =>
    obtain ⟨k0, w⟩ := kv
    by_cases h0 : k0 = k
    · subst h0
      unfold getCount
      rw [setCount, if_pos rfl, lookup_cons_ne _ _ _ _ h, lookup_cons_ne _ _ _ _ h]
    · rw [setCount, if_neg h0]
      by_cases hx : x = k0
      · subst hx
        unfold getCount
        rw [lookup_cons_self, lookup_cons_self]
      · unfold getCount
        rw [lookup_cons_ne _ _ _ _ hx, lookup_cons_ne _ _ _ _ hx]
        exact ih

theorem getCount_applyIncs_of_not_mem (inc : Player → Nat) :
    ∀ (l : List Player) (m : List (String × Nat)) (x : String),
      (∀ p ∈ l, p.id ≠ x) →
      getCount (applyIncs inc m l) x = getCount m x := by
  intro l
  induction l with
  | nil => intro m x _; rfl
  | cons p rest ih =>
    intro m x h
    have hp : p.id ≠ x := h p (List.mem_cons_self p rest)
    have hrest : ∀ q ∈ rest, q.id ≠ x := fun q hq => h q (List.mem_cons_of_mem p hq)
    calc getCount (applyIncs inc (setCount m p.id (getCount m p.id + inc p)) rest) x
        = getCount (setCount m p.id (getCount m p.id + inc p)) x := ih _ x hrest
      _ = getCount m x := getCount_setCount_ne _ _ _ _ (Ne.symm hp)

theorem getCount_applyIncs_of_mem (inc : Player → Nat) (p : Player) :
    ∀ (l : List Player) (m : List (String × Nat)),
      (l.map Player.id).Nodup → p ∈ l →
      getCount (applyIncs inc m l) p.id = getCount m p.id + inc p := by
  intro l
  induction l with
  | nil => intro m _ hp; cases hp
  | cons q rest ih =>
    intro m hnd hp
    rcases List.mem_cons.mp hp with h | h
    · subst h
      have hfresh : ∀ r ∈ rest, r.id ≠ p.id := by
        intro r hr contra
        exact (List.nodup_cons.mp hnd).1 (contra ▸ List.mem_map_of_mem Player.id hr)
      calc getCount (applyIncs inc (setCount m p.id (getCount m p.id + inc p)) rest) p.id
          = getCount (setCount m p.id (getCount m p.id + inc p)) p.id :=
            getCount_applyIncs_of_not_mem inc rest _ p.id hfresh
        _ = getCount m p.id + inc p := getCount_setCount_self _ _ _
    · have hne : q.id ≠ p.id := by
        intro contra
        exact (List.nodup_cons.mp hnd).1 (contra ▸ List.mem_map_of_mem Player.id h)
      calc getCount (applyIncs inc m (q :: rest)) p.id
          = getCount (applyIncs inc (setCount m q.id (getCount m q.id + inc q)) rest) p.id := rfl
        _ = getCount (setCount m q.id (getCount m q.id + inc q)) p.id + inc p :=
            ih _ (List.nodup_cons.mp hnd).2 h
        _ = getCount m p.id + inc p := by
            rw [getCount_setCount_ne _ _ _ _ (Ne.symm hne)]

theorem getCount_le_applyIncs (inc : Player → Nat) :
    ∀ (l : List Player) (m : List (String × Nat)) (x : String),
      getCount m x ≤ getCount (applyIncs inc m l) x := by
  intro l
  induction l with
  | nil => intro m x; exact Nat.le_refl _
  | cons p rest ih =>
    intro m x
    refine Nat.le_trans ?_ (ih (setCount m p.id (getCount m p.id + inc p)) x)
    by_cases h : x = p.id
    · subst h
      rw [getCount_setCount_self]
      exact Nat.le_add_right _ _
    · rw [getCount_setCount_ne _ _ _ _ h]

/-! Helper lemmas about selection, sorting and the snake distribution. -/

theorem selectPlayersForMatch_perm_take (g : AIMatchGenerator) (r : Nat) :
    g.selectPlayersForMatch r =
      (List.insertionSort (fairLE g) g.players).take r := by
  show (List.insertionSort (fairLE g) g.players).take
      (min r (List.insertionSort (fairLE g) g.players).length) = _
  rcases Nat.le_total r (List.insertionSort (fairLE g) g.players).length with h | h
  · rw [min_eq_left h]
  · rw [min_eq_right h, List.take_length, List.take_of_length_le h]

theorem length_selectPlayersForMatch (g : AIMatchGenerator) (r : Nat) :
    (g.selectPlayersForMatch r).length = min r g.players.length := by
  rw [selectPlayersForMatch_perm_take, List.length_take,
    (List.perm_insertionSort (fairLE g) g.players).length_eq]

theorem mem_of_mem_selectPlayersForMatch (g : AIMatchGenerator) (r : Nat)
    (p : Player) (hp : p ∈ g.selectPlayersForMatch r) : p ∈ g.players := by
  rw [selectPlayersForMatch_perm_take] at hp
  exact (List.perm_insertionSort (fairLE g) g.players).subset
    (List.take_subset _ _ hp)

theorem nodup_ids_selectPlayersForMatch (g : AIMatchGenerator) (r : Nat)
    (h : (g.players.map Player.id).Nodup) :
    ((g.selectPlayersForMatch r).map Player.id).Nodup := by
  rw [selectPlayersForMatch_perm_take]
  have hperm := (List.perm_insertionSort (fairLE g) g.players).map Player.id
  have hnd : ((List.insertionSort (fairLE g) g.players).map Player.id).Nodup :=
    hperm.nodup_iff.mpr h
  have hsub : List.Sublist
      (((List.insertionSort (fairLE g) g.players).take r).map Player.id)
      ((List.insertionSort (fairLE g) g.players).map Player.id) :=
    (List.take_sublist r _).map Player.id
  exact List.Nodup.sublist hsub hnd

theorem id_injective_on (l : List Player) (h : (l.map Player.id).Nodup)
    (a b : Player) (ha : a ∈ l) (hb : b ∈ l) (hid : a.id = b.id) : a = b := by
  induction l with
  | nil => cases ha
  | cons p rest ih =>
    rcases List.mem_cons.mp ha with ha1 | ha1 <;>
      rcases List.mem_cons.mp hb with hb1 | hb1
    · exact ha1.trans hb1.symm
    · exfalso
      subst ha1
      exact (List.nodup_cons.mp h).1 (hid ▸ List.mem_map_of_mem Player.id hb1)
    · exfalso
      subst hb1
      exact (List.nodup_cons.mp h).1 (hid ▸ List.mem_map_of_mem Player.id ha1)
    · exact ih (List.nodup_cons.mp h).2 ha1 hb1

theorem snakeAux_lengths (n : Nat) :
    ∀ (pool : List Player) (idx : Nat) (tA tB : List Player),
      tA.length ≤ n → tB.length ≤ n →
      tA.length + tB.length + pool.length ≤ 2 * n →
      (snakeAux n idx tA tB pool).1.length + (snakeAux n idx tA tB pool).2.length
          = tA.length + tB.length + pool.length ∧
        (snakeAux n idx tA tB pool).1.length ≤ n ∧
        (snakeAux n idx tA tB pool).2.length ≤ n := by
  intro pool
  induction pool with
  | nil =>
    intro idx tA tB hA hB _
    exact ⟨by simp [snakeAux], hA, hB⟩
  | cons p rest ih =>
    intro idx tA tB hA hB htot
    have htot2 : tA.length + tB.length + rest.length + 1 ≤ 2 * n := by
      simp [List.length_cons] at htot
      omega
    by_cases he : idx % 2 = 0
    · by_cases hfits : tA.length < n
      · have := ih (idx + 1) (tA ++ [p]) tB
          (by simp [List.length_append]; omega) hB
          (by simp [List.length_append]; omega)
        rw [snakeAux, if_pos he, if_pos hfits]
        refine ⟨?_, this.2⟩
        rw [this.1]
        simp [List.length_append]
        omega
      · have hBlt : tB.length < n := by omega
        have := ih (idx + 1) tA (tB ++ [p]) hA
          (by simp [List.length_append]; omega)
          (by simp [List.length_append]; omega)
        rw [snakeAux, if_pos he, if_neg hfits]
        refine ⟨?_, this.2⟩
        rw [this.1]
        simp [List.length_append]
        omega
    · by_cases hfits : tB.length < n
      · have := ih (idx + 1) tA (tB ++ [p])
          hA (by simp [List.length_append]; omega)
          (by simp [List.length_append]; omega)
        rw [snakeAux, if_neg he, if_pos hfits]
        refine ⟨?_, this.2⟩
        rw [this.1]
        simp [List.length_append]
        omega
      · have hAlt : tA.length < n := by omega
        have := ih (idx + 1) (tA ++ [p]) tB
          (by simp [List.length_append]; omega) hB
          (by simp [List.length_append]; omega)
        rw [snakeAux, if_neg he, if_neg hfits]
        refine ⟨?_, this.2⟩
        rw [this.1]
        simp [List.length_append]
        omega

theorem snakeAux_halves (n : Nat) (pool : List Player)
    (hlen : pool.length = 2 * n) :
    (snakeAux n 0 [] [] pool).1.length = n ∧
      (snakeAux n 0 [] [] pool).2.length = n := by
  have := snakeAux_lengths n pool 0 [] [] (by simp) (by simp) (by simp [hlen])
  rcases this with ⟨hsum, hA, hB⟩
  simp [hlen] at hsum
  omega

theorem filter_ne_id_length (ds : Player) :
    ∀ (l : List Player), (l.map Player.id).Nodup → ds ∈ l →
      (l.filter fun p => ¬ p.id = ds.id).length + 1 = l.length := by
  intro l
  induction l with
  | nil => intro _ h; cases h
  | cons q rest ih =>
    intro hnd hds
    rcases List.mem_cons.mp hds with h | h
    · subst h
      have hkeep : ∀ a ∈ rest, (fun p => decide (¬ p.id = ds.id)) a = true := by
        intro a ha
        refine decide_eq_true ?_
        intro contra
        exact (List.nodup_cons.mp hnd).1 (contra ▸ List.mem_map_of_mem Player.id ha)
      have hfalse : (decide (¬ ds.id = ds.id)) = false := by simp
      rw [List.filter_cons, hfalse, if_neg (by simp)]
      rw [List.filter_eq_self.mpr hkeep]
      rfl
    · have hne : ¬ q.id = ds.id := by
        intro contra
        exact (List.nodup_cons.mp hnd).1 (contra ▸ List.mem_map_of_mem Player.id h)
      have htrue : (decide (¬ q.id = ds.id)) = true := decide_eq_true hne
      rw [List.filter_cons, htrue, if_pos rfl]
      have := ih (List.nodup_cons.mp hnd).2 h
      rw [List.length_cons, List.length_cons]
      omega

theorem filter_ne_id_eq_erase (ds : Player) :
    ∀ (l : List Player), (l.map Player.id).Nodup → ds ∈ l →
      (l.filter fun p => ¬ p.id = ds.id) = l.erase ds := by
  intro l
  induction l with
  | nil => intro _ h; cases h
  | cons q rest ih =>
    intro hnd hds
    rcases List.mem_cons.mp hds with h | h
    · subst h
      have hkeep : ∀ a ∈ rest, (fun p => decide (¬ p.id = ds.id)) a = true := by
        intro a ha
        refine decide_eq_true ?_
        intro contra
        exact (List.nodup_cons.mp hnd).1 (contra ▸ List.mem_map_of_mem Player.id ha)
      have hfalse : (decide (¬ ds.id = ds.id)) = false := by simp
      rw [List.erase_cons_head, List.filter_cons, hfalse, if_neg (by simp)]
      exact List.filter_eq_self.mpr hkeep
    · have hneid : ¬ q.id = ds.id := by
        intro contra
        exact (List.nodup_cons.mp hnd).1 (contra ▸ List.mem_map_of_mem Player.id h)
      have hne : q ≠ ds := fun contra => hneid (congrArg Player.id contra)
      have htrue : (decide (¬ q.id = ds.id)) = true := decide_eq_true hneid
      rw [List.filter_cons, htrue, if_pos rfl,
        List.erase_cons_tail (by simpa using hne)]
      rw [ih (List.nodup_cons.mp hnd).2 h]

/-! Helper lemmas about the constructor, rotation, the double-sider choice
and the fallback batch loop. -/

theorem values_zero_getCount (m : List (String × Nat))
    (h : ∀ kv ∈ m, kv.2 = 0) (x : String) : getCount m x = 0 := by
  induction m with
  | nil => rfl
  | cons kv rest ih =>
    obtain ⟨k, v⟩ := kv
    have hv : v = 0 := h (k, v) (List.mem_cons_self _ _)
    by_cases hx : x = k
    · subst hx hv
      unfold getCount
      rw [lookup_cons_self]
    · unfold getCount
      rw [lookup_cons_ne _ _ _ _ hx]
      exact ih fun kv hkv => h kv (List.mem_cons_of_mem _ hkv)

theorem values_zero_setCount (m : List (String × Nat))
    (h : ∀ kv ∈ m, kv.2 = 0) (k : String) :
    ∀ kv ∈ setCount m k 0, kv.2 = 0 := by
  induction m with
  | nil =>
    intro kv hkv
    simp [setCount] at hkv
    rw [hkv]
  | cons kv0 rest ih =>
    obtain ⟨k0, v0⟩ := kv0
    intro kv hkv
    by_cases h0 : k0 = k
    · subst h0
      rw [setCount, if_pos rfl] at hkv
      rcases List.mem_cons.mp hkv with h1 | h1
      · rw [h1]
      · exact h kv (List.mem_cons_of_mem _ h1)
    · rw [setCount, if_neg h0] at hkv
      rcases List.mem_cons.mp hkv with h1 | h1
      · rw [h1]
        exact h (k0, v0) (List.mem_cons_self _ _)
      · exact ih (fun kv hkv => h kv (List.mem_cons_of_mem _ hkv)) kv h1

theorem foldl_setCount_zero_values (players : List Player) :
    ∀ (m : List (String × Nat)), (∀ kv ∈ m, kv.2 = 0) →
      ∀ kv ∈ players.foldl (fun m p => setCount m p.id 0) m, kv.2 = 0 := by
  induction players with
  | nil => intro m h; exact h
  | cons p rest ih =>
    intro m h
    exact ih (setCount m p.id 0) (values_zero_setCount m h p.id)

theorem getCount_init (players : List Player) (mode : Mode) (teamSize : Nat)
    (doubleSider : Bool) (key : String) (x : String) :
    getCount (AIMatchGenerator.init players mode teamSize doubleSider key).playCount x = 0 :=
  values_zero_getCount _
    (foldl_setCount_zero_values players [] (by intro kv h; cases h)) x

theorem setCount_absent (m : List (String × Nat)) (k : String) (v : Nat)
    (h : m.lookup k = none) : setCount m k v = m ++ [(k, v)] := by
  induction m with
  | nil => rfl
  | cons kv rest ih =>
    obtain ⟨k0, w⟩ := kv
    by_cases h0 : k0 = k
    · subst h0
      rw [lookup_cons_self] at h
      cases h
    · rw [setCount, if_neg h0, List.cons_append]
      rw [lookup_cons_ne _ _ _ _ (Ne.symm h0)] at h
      rw [ih h]

theorem lookup_append_right (m1 m2 : List (String × Nat)) (k : String)
    (h : m1.lookup k = none) : (m1 ++ m2).lookup k = m2.lookup k := by
  induction m1 with
  | nil => rfl
  | cons kv rest ih =>
    obtain ⟨k0, w⟩ := kv
    by_cases h0 : k = k0
    · subst h0
      rw [lookup_cons_self] at h
      cases h
    · rw [List.cons_append, lookup_cons_ne _ _ _ _ h0]
      rw [lookup_cons_ne _ _ _ _ h0] at h
      exact ih h

theorem init_playCount_eq (players : List Player)
    (hnd : (players.map Player.id).Nodup) :
    ∀ (m : List (String × Nat)),
      (∀ p ∈ players, m.lookup p.id = none) →
      players.foldl (fun m p => setCount m p.id 0) m
        = m ++ players.map (fun p => (p.id, 0)) := by
  induction players with
  | nil => intro m _; simp
  | cons p rest ih =>
    intro m hfresh
    have hstep : setCount m p.id 0 = m ++ [(p.id, 0)] :=
      setCount_absent m p.id 0 (hfresh p (List.mem_cons_self _ _))
    have hfresh2 : ∀ q ∈ rest, (m ++ [(p.id, 0)]).lookup q.id = none := by
      intro q hq
      have hqid : ¬ q.id = p.id := by
        intro contra
        exact (List.nodup_cons.mp hnd).1 (contra ▸ List.mem_map_of_mem Player.id hq)
      rw [lookup_append_right _ _ _ (hfresh q (List.mem_cons_of_mem _ hq))]
      rw [lookup_cons_ne _ _ _ _ hqid]
      rfl
    calc (p :: rest).foldl (fun m p => setCount m p.id 0) m
        = rest.foldl (fun m p => setCount m p.id 0) (m ++ [(p.id, 0)]) := by
          rw [List.foldl_cons, hstep]
      _ = (m ++ [(p.id, 0)]) ++ rest.map (fun p => (p.id, 0)) :=
          ih (List.nodup_cons.mp hnd).2 _ hfresh2
      _ = m ++ (p :: rest).map (fun p => (p.id, 0)) := by
          simp

theorem init_playCount (players : List Player) (mode : Mode) (teamSize : Nat)
    (doubleSider : Bool) (key : String)
    (hnd : (players.map Player.id).Nodup) :
    (AIMatchGenerator.init players mode teamSize doubleSider key).playCount
      = players.map (fun p => (p.id, 0)) := by
  show players.foldl (fun m p => setCount m p.id 0) [] = _
  rw [init_playCount_eq players hnd [] (by intro p _; rfl)]
  rfl

theorem rotateArray_perm {α : Type} (l : List α) (o : Nat) :
    (rotateArray l o).Perm l := by
  unfold rotateArray
  by_cases h : l.length = 0
  · rw [if_pos h]
  · rw [if_neg h]
    have h1 : (l.drop (o % l.length) ++ l.take (o % l.length)).Perm
        (l.take (o % l.length) ++ l.drop (o % l.length)) := List.perm_append_comm
    have h2 : l.take (o % l.length) ++ l.drop (o % l.length) = l :=
      List.take_append_drop _ l
    rw [h2] at h1
    exact h1

theorem head_insertionSort_firstMax :
    ∀ (l : List Player), (List.insertionSort skillGE l).head? = firstMaxBySkill l := by
  intro l
  induction l with
  | nil => rfl
  | cons p rest ih =>
    have hcons : List.insertionSort skillGE (p :: rest)
        = List.orderedInsert skillGE p (List.insertionSort skillGE rest) := rfl
    rw [hcons]
    cases hs : List.insertionSort skillGE rest with
    | nil =>
      have hrest : rest = [] := List.eq_nil_of_length_eq_zero
        (by rw [← List.length_insertionSort skillGE rest, hs]; rfl)
      subst hrest
      rfl
    | cons h t =>
      have hfm : firstMaxBySkill rest = some h := by
        rw [← ih, hs]
        rfl
      simp only [firstMaxBySkill, hfm]
      simp only [List.orderedInsert]
      have hle0 : skillGE p h ↔ h.skillLevel ≤ p.skillLevel := Iff.rfl
      by_cases hle : skillGE p h
      · rw [if_pos hle]
        have hnotgt : ¬ h.skillLevel > p.skillLevel := not_lt.mpr (hle0.mp hle)
        rw [if_neg hnotgt]
        rfl
      · rw [if_neg hle]
        have hgt : h.skillLevel > p.skillLevel :=
          lt_of_not_le (fun hc => hle (hle0.mpr hc))
        rw [if_pos hgt]
        rfl

theorem generateSingleTeamMatch_players (g : AIMatchGenerator) (k : Nat) (t : Toss) :
    (g.generateSingleTeamMatch k t).2.players = g.players := rfl

theorem generateSingleTeamMatch_teamSize (g : AIMatchGenerator) (k : Nat) (t : Toss) :
    (g.generateSingleTeamMatch k t).2.teamSize = g.teamSize := rfl

theorem generateSingleTeamMatch_doubleSider (g : AIMatchGenerator) (k : Nat) (t : Toss) :
    (g.generateSingleTeamMatch k t).2.doubleSider = g.doubleSider := rfl

theorem generateSingleTeamMatch_mode (g : AIMatchGenerator) (k : Nat) (t : Toss) :
    (g.generateSingleTeamMatch k t).2.mode = g.mode := rfl

theorem fallbackAux_matches_from (toss : Nat → Toss) :
    ∀ (n i : Nat) (g : AIMatchGenerator),
      ∀ m ∈ (fallbackAux toss n i g).1,
        ∃ (g0 : AIMatchGenerator) (k : Nat) (t : Toss),
          m = (g0.generateSingleTeamMatch k t).1 ∧
          g0.players = g.players ∧ g0.teamSize = g.teamSize ∧
          g0.doubleSider = g.doubleSider ∧ g0.mode = g.mode := by
  intro n
  induction n with
  | zero => intro i g m hm; cases hm
  | succ n ih =>
    intro i g m hm
    rw [fallbackAux] at hm
    rcases List.mem_cons.mp hm with h | h
    · exact ⟨g, i + 1, toss i, h, rfl, rfl, rfl, rfl⟩
    · obtain ⟨g0, k, t, heq, hp, ht, hd, hmo⟩ := ih (i + 1) _ m h
      exact ⟨g0, k, t, heq, hp, ht, hd, hmo⟩

/-! Helper lemmas about the team partition. -/

theorem length_selectedOf (g : AIMatchGenerator)
    (hlen : requiredCountOf g ≤ g.players.length) :
    (selectedOf g).length = requiredCountOf g := by
  unfold selectedOf
  rw [length_selectPlayersForMatch, min_eq_left hlen]

theorem teamsOf_eq_of_not_ds (g : AIMatchGenerator) (hds : g.doubleSider = false) :
    teamsOf g =
      ((snakeAux g.teamSize 0 [] [] (List.insertionSort skillGE (selectedOf g))).1,
       (snakeAux g.teamSize 0 [] [] (List.insertionSort skillGE (selectedOf g))).2,
       (none : Option Player)) := by
  unfold teamsOf
  rw [hds]
  rfl

theorem teamsOf_eq_of_ds (g : AIMatchGenerator) (hds : g.doubleSider = true)
    (ds : Player) (tl : List Player)
    (hsort : List.insertionSort skillGE (selectedOf g) = ds :: tl) :
    teamsOf g =
      ((snakeAux g.teamSize 0 [] []
          (List.insertionSort skillGE
            ((selectedOf g).filter fun p => ¬ p.id = ds.id))).1 ++ [ds],
       (snakeAux g.teamSize 0 [] []
          (List.insertionSort skillGE
            ((selectedOf g).filter fun p => ¬ p.id = ds.id))).2 ++ [ds],
       some ds) := by
  unfold teamsOf
  rw [hds]
  simp only [if_pos rfl, hsort]
  simp

theorem teams_sizes_of_not_ds (g : AIMatchGenerator) (hds : g.doubleSider = false)
    (hlen : requiredCountOf g ≤ g.players.length) :
    (teamsOf g).1.length = g.teamSize ∧ (teamsOf g).2.1.length = g.teamSize ∧
      (teamsOf g).2.2 = none := by
  have hreq : requiredCountOf g = g.teamSize * 2 := by
    unfold requiredCountOf
    rw [hds]
    rfl
  have hsel : (selectedOf g).length = g.teamSize * 2 :=
    (length_selectedOf g hlen).trans hreq
  have hsort : (List.insertionSort skillGE (selectedOf g)).length = 2 * g.teamSize := by
    rw [List.length_insertionSort, hsel, Nat.mul_comm]
  have hh := snakeAux_halves g.teamSize _ hsort
  rw [teamsOf_eq_of_not_ds g hds]
  exact ⟨hh.1, hh.2, rfl⟩

theorem exists_ds_head (g : AIMatchGenerator) (hds : g.doubleSider = true)
    (hlen : requiredCountOf g ≤ g.players.length) :
    ∃ (ds : Player) (tl : List Player),
      List.insertionSort skillGE (selectedOf g) = ds :: tl ∧ ds ∈ selectedOf g := by
  have hreq : requiredCountOf g = g.teamSize * 2 + 1 := by
    unfold requiredCountOf
    rw [hds]
    rfl
  have hsel : (selectedOf g).length = g.teamSize * 2 + 1 :=
    (length_selectedOf g hlen).trans hreq
  have hpos : 0 < (List.insertionSort skillGE (selectedOf g)).length := by
    rw [List.length_insertionSort, hsel]
    omega
  cases hsort : List.insertionSort skillGE (selectedOf g) with
  | nil =>
    rw [hsort] at hpos
    cases hpos
  | cons ds tl =>
    refine ⟨ds, tl, rfl, ?_⟩
    have : ds ∈ List.insertionSort skillGE (selectedOf g) := by
      rw [hsort]
      exact List.mem_cons_self _ _
    exact (List.perm_insertionSort skillGE (selectedOf g)).subset this

theorem teams_sizes_of_ds (g : AIMatchGenerator) (hds : g.doubleSider = true)
    (hnd : (g.players.map Player.id).Nodup)
    (hlen : requiredCountOf g ≤ g.players.length) :
    ∃ ds : Player, (teamsOf g).2.2 = some ds ∧
      (teamsOf g).1.length = g.teamSize + 1 ∧
      (teamsOf g).2.1.length = g.teamSize + 1 ∧
      ds ∈ (teamsOf g).1 ∧ ds ∈ (teamsOf g).2.1 := by
  obtain ⟨ds, tl, hsort, hmem⟩ := exists_ds_head g hds hlen
  have hreq : requiredCountOf g = g.teamSize * 2 + 1 := by
    unfold requiredCountOf
    rw [hds]
    rfl
  have hsel : (selectedOf g).length = g.teamSize * 2 + 1 :=
    (length_selectedOf g hlen).trans hreq
  have hndsel : ((selectedOf g).map Player.id).Nodup :=
    nodup_ids_selectPlayersForMatch g _ hnd
  have hfil : ((selectedOf g).filter fun p => ¬ p.id = ds.id).length + 1
      = (selectedOf g).length := filter_ne_id_length ds (selectedOf g) hndsel hmem
  have hpool : (List.insertionSort skillGE
      ((selectedOf g).filter fun p => ¬ p.id = ds.id)).length = 2 * g.teamSize := by
    rw [List.length_insertionSort]
    omega
  have hh := snakeAux_halves g.teamSize _ hpool
  rw [teamsOf_eq_of_ds g hds ds tl hsort]
  refine ⟨ds, rfl, ?_, ?_, ?_, ?_⟩
  · rw [List.length_append, hh.1]
    rfl
  · rw [List.length_append, hh.2]
    rfl
  · exact List.mem_append_right _ (List.mem_singleton_self ds)
  · exact List.mem_append_right _ (List.mem_singleton_self ds)

/-! Concrete fixtures used by witnesses and counterexamples. -/

/-- Four players of equal skill, ids a b c d. -/
def rosterABCD : List Player :=
  [{ id := "a", name := "A", skillLevel := 5 },
   { id := "b", name := "B", skillLevel := 5 },
   { id := "c", name := "C", skillLevel := 5 },
   { id := "d", name := "D", skillLevel := 5 }]

/-- Three players of distinct skills 3, 2, 1, ids x y z. -/
def rosterXYZ : List Player :=
  [{ id := "x", name := "X", skillLevel := 3 },
   { id := "y", name := "Y", skillLevel := 2 },
   { id := "z", name := "Z", skillLevel := 1 }]

/-- Constant toss source standing in for Math.random. -/
def tossConstA : Nat → Toss := fun _ => Toss.A

/-- Teams session over rosterABCD, teamSize 2, no double-sider. -/
def gTeams4 : AIMatchGenerator :=
  AIMatchGenerator.init rosterABCD Mode.Teams 2 false ""

/-- Teams session over rosterXYZ, teamSize 1, double-sider enabled. -/
def gTeamsDS : AIMatchGenerator :=
  AIMatchGenerator.init rosterXYZ Mode.Teams 1 true ""

/-! Per-match team size lemma. -/

theorem generateSingleTeamMatch_sizes (g : AIMatchGenerator) (k : Nat) (t : Toss)
    (hnd : (g.players.map Player.id).Nodup)
    (hlen : requiredCountOf g ≤ g.players.length) :
    (g.doubleSider = false →
      ((g.generateSingleTeamMatch k t).1.teamA.map List.length = some g.teamSize ∧
       (g.generateSingleTeamMatch k t).1.teamB.map List.length = some g.teamSize ∧
       (g.generateSingleTeamMatch k t).1.doubleSider = none)) ∧
    (g.doubleSider = true →
      ∃ (ds : Player) (lA lB : List Player),
        (g.generateSingleTeamMatch k t).1.doubleSider = some ds ∧
        (g.generateSingleTeamMatch k t).1.teamA = some lA ∧
        (g.generateSingleTeamMatch k t).1.teamB = some lB ∧
        lA.length = g.teamSize + 1 ∧ lB.length = g.teamSize + 1 ∧
        ds ∈ lA ∧ ds ∈ lB) := by
  constructor
  · intro hds
    have h := teams_sizes_of_not_ds g hds hlen
    have hA : (g.generateSingleTeamMatch k t).1.teamA = some (teamsOf g).1 := rfl
    have hB : (g.generateSingleTeamMatch k t).1.teamB = some (teamsOf g).2.1 := rfl
    have hD : (g.generateSingleTeamMatch k t).1.doubleSider = (teamsOf g).2.2 := rfl
    rw [hA, hB, hD, h.2.2]
    exact ⟨by simp [h.1], by simp [h.2.1], rfl⟩
  · intro hds
    obtain ⟨ds, hsome, hlA, hlB, hmA, hmB⟩ := teams_sizes_of_ds g hds hnd hlen
    exact ⟨ds, (teamsOf g).1, (teamsOf g).2.1, hsome, rfl, rfl, hlA, hlB, hmA, hmB⟩

/-- C2, amended statement, on the deterministic batch: with a roster of
unique ids at least as large as the required count, every generated match has
teams of exactly teamSize players when the double-sider is disabled; when it
is enabled each team list holds its teamSize regular players plus the shared
double-sider (so teamSize + 1 entries) and the double-sider is a member of
both teams. -/
theorem C2_team_sizes_fallback (g : AIMatchGenerator) (n : Nat) (toss : Nat → Toss)
    (hnd : (g.players.map Player.id).Nodup)
    (hlen : requiredCountOf g ≤ g.players.length) :
    ∀ m ∈ (g.generateTeamsMatchesFallback n toss).1,
      (g.doubleSider = false →
        (m.teamA.map List.length = some g.teamSize ∧
         m.teamB.map List.length = some g.teamSize ∧
         m.doubleSider = none)) ∧
      (g.doubleSider = true →
        ∃ (ds : Player) (lA lB : List Player),
          m.doubleSider = some ds ∧ m.teamA = some lA ∧ m.teamB = some lB ∧
          lA.length = g.teamSize + 1 ∧ lB.length = g.teamSize + 1 ∧
          ds ∈ lA ∧ ds ∈ lB) := by
  intro m hm
  obtain ⟨g0, k, t, heq, hp, ht, hd, _⟩ :=
    fallbackAux_matches_from toss n 0 g m hm
  have hnd0 : (g0.players.map Player.id).Nodup := by rw [hp]; exact hnd
  have hlen0 : requiredCountOf g0 ≤ g0.players.length := by
    unfold requiredCountOf
    rw [hp, ht, hd]
    exact hlen
  have := generateSingleTeamMatch_sizes g0 k t hnd0 hlen0
  subst heq
  constructor
  · intro hds
    have h0 := this.1 (by rw [hd]; exact hds)
    rw [ht] at h0
    exact h0
  · intro hds
    have h0 := this.2 (by rw [hd]; exact hds)
    rw [ht] at h0
    exact h0

/-- Witness for C2: the amended theorem applied to the 4-player no
double-sider session for a 2-match batch. -/
theorem C2_team_sizes_fallback_witness :
    ((gTeams4.players.map Player.id).Nodup ∧
      requiredCountOf gTeams4 ≤ gTeams4.players.length) ∧
    (∀ m ∈ (gTeams4.generateTeamsMatchesFallback 2 tossConstA).1,
      (gTeams4.doubleSider = false →
        (m.teamA.map List.length = some gTeams4.teamSize ∧
         m.teamB.map List.length = some gTeams4.teamSize ∧
         m.doubleSider = none)) ∧
      (gTeams4.doubleSider = true →
        ∃ (ds : Player) (lA lB : List Player),
          m.doubleSider = some ds ∧ m.teamA = some lA ∧ m.teamB = some lB ∧
          lA.length = gTeams4.teamSize + 1 ∧ lB.length = gTeams4.teamSize + 1 ∧
          ds ∈ lA ∧ ds ∈ lB)) :=
  ⟨⟨by decide, by decide⟩,
    C2_team_sizes_fallback gTeams4 2 tossConstA (by decide) (by decide)⟩

/-- Counterexample to C2 as stated: in the double-sider configuration with
teamSize 1 over a sufficient roster, generateMatches (Teams mode, delegation
failing, deterministic path) returns a match whose teamA holds 2 players, not
teamSize = 1, because the double-sider is appended on top of the teamSize
regular players. -/
theorem C2_counterexample :
    requiredCountOf gTeamsDS ≤ gTeamsDS.players.length ∧
    gTeamsDS.teamSize = 1 ∧
    ((gTeamsDS.generateMatches 1 (.error "transport failure") tossConstA).1.map
      (fun m => m.teamA.map List.length)) = [some 2] := by
  decide

/-! Roster partition lemmas. -/

theorem mem_selectedOf_of_any (g : AIMatchGenerator)
    (hnd : (g.players.map Player.id).Nodup) (p : Player) (hp : p ∈ g.players)
    (hany : (selectedOf g).any (fun s => s.id == p.id) = true) :
    p ∈ selectedOf g := by
  obtain ⟨s, hs, hsid⟩ := List.any_eq_true.mp hany
  have hsid2 : s.id = p.id := by simpa using hsid
  have hsmem : s ∈ g.players := mem_of_mem_selectPlayersForMatch g _ s hs
  have : s = p := id_injective_on g.players hnd s p hsmem hp hsid2
  rw [← this]
  exact hs

theorem generateSingleTeamMatch_partition (g : AIMatchGenerator) (k : Nat)
    (t : Toss) (hnd : (g.players.map Player.id).Nodup) (p : Player) :
    ((p ∈ (g.generateSingleTeamMatch k t).1.playersPlaying ∨
      p ∈ (g.generateSingleTeamMatch k t).1.playersOut) ↔ p ∈ g.players) ∧
    ¬ (p ∈ (g.generateSingleTeamMatch k t).1.playersPlaying ∧
       p ∈ (g.generateSingleTeamMatch k t).1.playersOut) := by
  have hPP : (g.generateSingleTeamMatch k t).1.playersPlaying = selectedOf g := rfl
  have hPO : (g.generateSingleTeamMatch k t).1.playersOut = playersOutOf g := rfl
  rw [hPP, hPO]
  constructor
  · constructor
    · intro h
      rcases h with h | h
      · exact mem_of_mem_selectPlayersForMatch g _ p h
      · exact (List.mem_filter.mp h).1
    · intro hp
      by_cases hany : (selectedOf g).any (fun s => s.id == p.id) = true
      · exact Or.inl (mem_selectedOf_of_any g hnd p hp hany)
      · refine Or.inr (List.mem_filter.mpr ⟨hp, ?_⟩)
        refine decide_eq_true ?_
        simpa using hany
  · intro ⟨hin, hout⟩
    have hfil := (List.mem_filter.mp hout).2
    have : ¬ (selectedOf g).any (fun s => s.id == p.id) = true :=
      of_decide_eq_true hfil
    exact this (List.any_eq_true.mpr ⟨p, hin, by simp⟩)

/-- C8: for every match of the deterministic Teams batch, the participants
and the sitting-out players are disjoint and together are exactly the roster
(unique ids assumed, as the collaborator guarantees). -/
theorem C8_partition_fallback (g : AIMatchGenerator) (n : Nat) (toss : Nat → Toss)
    (hnd : (g.players.map Player.id).Nodup) :
    ∀ m ∈ (g.generateTeamsMatchesFallback n toss).1, ∀ p : Player,
      ((p ∈ m.playersPlaying ∨ p ∈ m.playersOut) ↔ p ∈ g.players) ∧
      ¬ (p ∈ m.playersPlaying ∧ p ∈ m.playersOut) := by
  intro m hm p
  obtain ⟨g0, k, t, heq, hp, _, _, _⟩ :=
    fallbackAux_matches_from toss n 0 g m hm
  have hnd0 : (g0.players.map Player.id).Nodup := by rw [hp]; exact hnd
  have := generateSingleTeamMatch_partition g0 k t hnd0 p
  subst heq
  rw [hp] at this
  exact this

/-- Witness for C8: the partition property applied to the 4-player session
for a 3-match batch. -/
theorem C8_partition_fallback_witness :
    (gTeams4.players.map Player.id).Nodup ∧
    (∀ m ∈ (gTeams4.generateTeamsMatchesFallback 3 tossConstA).1, ∀ p : Player,
      ((p ∈ m.playersPlaying ∨ p ∈ m.playersOut) ↔ p ∈ gTeams4.players) ∧
      ¬ (p ∈ m.playersPlaying ∧ p ∈ m.playersOut)) :=
  ⟨by decide, C8_partition_fallback gTeams4 3 tossConstA (by decide)⟩

/-! Play-count invariant lemmas. -/

theorem teamsOf_some_inv (g : AIMatchGenerator) (ds : Player)
    (h : (teamsOf g).2.2 = some ds) :
    g.doubleSider = true ∧ ds ∈ selectedOf g := by
  by_cases hds : g.doubleSider = true
  · refine ⟨hds, ?_⟩
    unfold teamsOf at h
    rw [hds] at h
    simp only [if_pos rfl] at h
    cases hsort : List.insertionSort skillGE (selectedOf g) with
    | nil =>
      rw [hsort] at h
      cases h
    | cons d tl =>
      rw [hsort] at h
      simp at h
      have hd : d ∈ List.insertionSort skillGE (selectedOf g) := by
        rw [hsort]
        exact List.mem_cons_self _ _
      rw [← h]
      exact (List.perm_insertionSort skillGE (selectedOf g)).subset hd
  · exfalso
    have hfalse : g.doubleSider = false := by
      cases hb : g.doubleSider
      · rfl
      · exact absurd hb hds
    rw [teamsOf_eq_of_not_ds g hfalse] at h
    cases h

theorem generateSingleTeamMatch_playCount (g : AIMatchGenerator) (k : Nat)
    (t : Toss) :
    (g.generateSingleTeamMatch k t).2.playCount =
      applyIncs
        (fun player =>
          if g.doubleSider && dsHit (teamsOf g).2.2 player then 2 else 1)
        g.playCount (selectedOf g) := rfl

/-- C9, amended statement: the constructor creates exactly one play-count
entry per roster player, each 0; each deterministic Teams match adds exactly
2 to the double-sider, exactly 1 to every other participant and 0 to every
sitting-out player; and counts never decrease, on the deterministic step as
well as on every successfully parsed delegated match (a delegated match pays
its double-sider the +2 only when that player actually occurs in the parsed
teams, which the response is never validated to guarantee). -/
theorem C9_playCount_invariants
    (players : List Player) (mode : Mode) (ts : Nat) (dsFlag : Bool)
    (key : String) (hndp : (players.map Player.id).Nodup)
    (g : AIMatchGenerator) (k : Nat) (t : Toss) (rm : RawGroqMatch)
    (hnd : (g.players.map Player.id).Nodup) :
    ((AIMatchGenerator.init players mode ts dsFlag key).playCount
        = players.map fun p => (p.id, 0)) ∧
    (∀ p ∈ (g.generateSingleTeamMatch k t).1.playersOut,
      getCount (g.generateSingleTeamMatch k t).2.playCount p.id
        = getCount g.playCount p.id) ∧
    (∀ ds : Player, (g.generateSingleTeamMatch k t).1.doubleSider = some ds →
      getCount (g.generateSingleTeamMatch k t).2.playCount ds.id
        = getCount g.playCount ds.id + 2) ∧
    (∀ p ∈ (g.generateSingleTeamMatch k t).1.playersPlaying,
      (∀ ds : Player,
        (g.generateSingleTeamMatch k t).1.doubleSider = some ds → p.id ≠ ds.id) →
      getCount (g.generateSingleTeamMatch k t).2.playCount p.id
        = getCount g.playCount p.id + 1) ∧
    (∀ x : String, getCount g.playCount x
        ≤ getCount (g.generateSingleTeamMatch k t).2.playCount x) ∧
    (∀ (m2 : Match) (g2 : AIMatchGenerator),
      parseOneGroqMatch g rm = .ok (m2, g2) →
      ∀ x : String, getCount g.playCount x ≤ getCount g2.playCount x) := by
  have hndsel : ((selectedOf g).map Player.id).Nodup :=
    nodup_ids_selectPlayersForMatch g _ hnd
  refine ⟨init_playCount players mode ts dsFlag key hndp, ?_, ?_, ?_, ?_, ?_⟩
  · intro p hp
    rw [generateSingleTeamMatch_playCount]
    have hPO : (g.generateSingleTeamMatch k t).1.playersOut = playersOutOf g := rfl
    rw [hPO] at hp
    have hfil := (List.mem_filter.mp hp).2
    have hnotany : ¬ (selectedOf g).any (fun s => s.id == p.id) = true :=
      of_decide_eq_true hfil
    refine getCount_applyIncs_of_not_mem _ _ _ _ ?_
    intro q hq contra
    exact hnotany (List.any_eq_true.mpr ⟨q, hq, by simp [contra]⟩)
  · intro ds hds
    have hDS : (g.generateSingleTeamMatch k t).1.doubleSider = (teamsOf g).2.2 := rfl
    rw [hDS] at hds
    obtain ⟨hflag, hmem⟩ := teamsOf_some_inv g ds hds
    rw [generateSingleTeamMatch_playCount]
    rw [getCount_applyIncs_of_mem _ ds _ _ hndsel hmem]
    have : (if g.doubleSider && dsHit (teamsOf g).2.2 ds then 2 else 1) = 2 := by
      rw [hflag, hds]
      simp [dsHit]
    rw [this]
  · intro p hp hne
    have hPP : (g.generateSingleTeamMatch k t).1.playersPlaying = selectedOf g := rfl
    rw [hPP] at hp
    rw [generateSingleTeamMatch_playCount]
    rw [getCount_applyIncs_of_mem _ p _ _ hndsel hp]
    have : (if g.doubleSider && dsHit (teamsOf g).2.2 p then 2 else 1) = 1 := by
      cases hopt : (teamsOf g).2.2 with
      | none => simp [dsHit, hopt]
      | some ds =>
        have hDS : (g.generateSingleTeamMatch k t).1.doubleSider = (teamsOf g).2.2 := rfl
        have hpid : p.id ≠ ds.id := hne ds (by rw [hDS, hopt])
        simp [dsHit, hopt, hpid]
    rw [this]
  · intro x
    rw [generateSingleTeamMatch_playCount]
    exact getCount_le_applyIncs _ _ _ _
  · intro m2 g2 hok x
    cases hA : rm.teamA with
    | none =>
      unfold parseOneGroqMatch at hok
      rw [hA] at hok
      cases hok
    | some teamAIds =>
      cases hB : rm.teamB with
      | none =>
        unfold parseOneGroqMatch at hok
        rw [hA, hB] at hok
        cases hok
      | some teamBIds =>
        cases hO : rm.playersOut with
        | none =>
          unfold parseOneGroqMatch at hok
          rw [hA, hB, hO] at hok
          cases hok
        | some playersOutIds =>
          unfold parseOneGroqMatch at hok
          rw [hA, hB, hO] at hok
          simp only [Except.ok.injEq, Prod.mk.injEq] at hok
          have hg2 := hok.2
          rw [← hg2]
          exact getCount_le_applyIncs _ _ _ _

/-- Fifth player with high skill, id e. -/
def playerE : Player := { id := "e", name := "E", skillLevel := 9 }

/-- Teams session over five players, teamSize 2, double-sider enabled. -/
def gTeamsDS5 : AIMatchGenerator :=
  AIMatchGenerator.init (rosterABCD ++ [playerE]) Mode.Teams 2 true ""

/-- Delegated response naming e as double-sider without listing e in either
team. -/
def respDSNotInTeams : GroqMatchResponse :=
  { matchList :=
      [{ matchNumber := 1
         teamA := some ["a", "b"]
         teamB := some ["c", "d"]
         doubleSider := some "e"
         playersOut := some []
         tossWinner := some Toss.A }] }

/-- Counterexample to C9 as stated: on the delegated path a parsed match can
name a double-sider who appears in neither team; the match then carries that
double-sider while the play count of that player increases by 0, not 2. -/
theorem C9_counterexample :
    ((gTeamsDS5.generateTeamsMatchesWithAI 1 (.ok respDSNotInTeams) tossConstA).1.map
      (fun m => (m.mode, m.doubleSider.map Player.id)) = [(Mode.Teams, some "e")]) ∧
    getCount
      (gTeamsDS5.generateTeamsMatchesWithAI 1 (.ok respDSNotInTeams) tossConstA).2.playCount
      "e" = 0 ∧
    getCount gTeamsDS5.playCount "e" = 0 := by
  decide

/-- Witness for C9: the amended invariants applied to the double-sider
session over three players. -/
theorem C9_playCount_invariants_witness :
    ((rosterXYZ.map Player.id).Nodup ∧ (gTeamsDS.players.map Player.id).Nodup) ∧
    (((AIMatchGenerator.init rosterXYZ Mode.Teams 1 true "").playCount
        = rosterXYZ.map fun p => (p.id, 0)) ∧
    (∀ p ∈ (gTeamsDS.generateSingleTeamMatch 1 Toss.A).1.playersOut,
      getCount (gTeamsDS.generateSingleTeamMatch 1 Toss.A).2.playCount p.id
        = getCount gTeamsDS.playCount p.id) ∧
    (∀ ds : Player,
      (gTeamsDS.generateSingleTeamMatch 1 Toss.A).1.doubleSider = some ds →
      getCount (gTeamsDS.generateSingleTeamMatch 1 Toss.A).2.playCount ds.id
        = getCount gTeamsDS.playCount ds.id + 2) ∧
    (∀ p ∈ (gTeamsDS.generateSingleTeamMatch 1 Toss.A).1.playersPlaying,
      (∀ ds : Player,
        (gTeamsDS.generateSingleTeamMatch 1 Toss.A).1.doubleSider = some ds →
          p.id ≠ ds.id) →
      getCount (gTeamsDS.generateSingleTeamMatch 1 Toss.A).2.playCount p.id
        = getCount gTeamsDS.playCount p.id + 1) ∧
    (∀ x : String, getCount gTeamsDS.playCount x
        ≤ getCount (gTeamsDS.generateSingleTeamMatch 1 Toss.A).2.playCount x) ∧
    (∀ (m2 : Match) (g2 : AIMatchGenerator),
      parseOneGroqMatch gTeamsDS
          { matchNumber := 1, teamA := some ["x"], teamB := some ["y"],
            doubleSider := none, playersOut := some ["z"],
            tossWinner := some Toss.A } = .ok (m2, g2) →
      ∀ x : String, getCount gTeamsDS.playCount x ≤ getCount g2.playCount x)) :=
  ⟨⟨by decide, by decide⟩,
    C9_playCount_invariants rosterXYZ Mode.Teams 1 true "" (by decide)
      gTeamsDS 1 Toss.A
      { matchNumber := 1, teamA := some ["x"], teamB := some ["y"],
        doubleSider := none, playersOut := some ["z"],
        tossWinner := some Toss.A }
      (by decide)⟩

/-- C5: the deterministic selection returns the first requiredCount entries
(all entries when the roster is smaller, with no error) of a permutation of
the roster that is sorted ascending by current play count with ties ordered
by ascending distance of the skill level from the roster mean; the selection
is a pure function of the session state and mutates nothing (it returns only
a list and its Lean type has no state output). -/
theorem C5_selectPlayersForMatch_sorted (g : AIMatchGenerator)
    (requiredCount : Nat) :
    ∃ S : List Player, S.Perm g.players ∧ List.Sorted (fairLE g) S ∧
      g.selectPlayersForMatch requiredCount = S.take requiredCount ∧
      (g.selectPlayersForMatch requiredCount).length
        = min requiredCount g.players.length :=
  ⟨List.insertionSort (fairLE g) g.players,
    List.perm_insertionSort _ _, List.sorted_insertionSort _ _,
    selectPlayersForMatch_perm_take g requiredCount,
    length_selectPlayersForMatch g requiredCount⟩

/-- C6: with the double-sider enabled, the chosen double-sider is the first
player of the selection attaining the maximal skill level (ties broken by
selection order), the pool loses exactly that player, the remaining pool is
stably sorted descending by skill and distributed by the alternating snake
(even sort index to teamA unless teamA is full, odd to teamB unless full),
and the double-sider is appended to both teams. -/
theorem C6_partition_doubleSider (g : AIMatchGenerator)
    (hds : g.doubleSider = true) (hnd : (g.players.map Player.id).Nodup)
    (hne : g.players ≠ []) (k : Nat) (t : Toss) :
    ∃ ds : Player, firstMaxBySkill (selectedOf g) = some ds ∧
      ds ∈ selectedOf g ∧
      (g.generateSingleTeamMatch k t).1.doubleSider = some ds ∧
      (g.generateSingleTeamMatch k t).1.teamA
        = some ((snakeAux g.teamSize 0 [] []
            (List.insertionSort skillGE ((selectedOf g).erase ds))).1 ++ [ds]) ∧
      (g.generateSingleTeamMatch k t).1.teamB
        = some ((snakeAux g.teamSize 0 [] []
            (List.insertionSort skillGE ((selectedOf g).erase ds))).2 ++ [ds]) := by
  have hlenpos : 0 < (selectedOf g).length := by
    have := length_selectPlayersForMatch g (requiredCountOf g)
    unfold selectedOf
    rw [this]
    have h1 : 0 < g.players.length := List.length_pos.mpr hne
    have h2 : 0 < requiredCountOf g := by
      unfold requiredCountOf
      rw [hds, if_pos rfl]
      omega
    exact Nat.lt_min.mpr ⟨h2, h1⟩
  have hsortpos : 0 < (List.insertionSort skillGE (selectedOf g)).length := by
    rw [List.length_insertionSort]
    exact hlenpos
  cases hsort : List.insertionSort skillGE (selectedOf g) with
  | nil =>
    rw [hsort] at hsortpos
    cases hsortpos
  | cons d tl =>
    have hmem : d ∈ selectedOf g := by
      have : d ∈ List.insertionSort skillGE (selectedOf g) := by
        rw [hsort]
        exact List.mem_cons_self _ _
      exact (List.perm_insertionSort skillGE (selectedOf g)).subset this
    have hfm : firstMaxBySkill (selectedOf g) = some d := by
      rw [← head_insertionSort_firstMax, hsort]
      rfl
    have hndsel : ((selectedOf g).map Player.id).Nodup :=
      nodup_ids_selectPlayersForMatch g _ hnd
    have hfe : ((selectedOf g).filter fun p => ¬ p.id = d.id)
        = (selectedOf g).erase d :=
      filter_ne_id_eq_erase d (selectedOf g) hndsel hmem
    have hteams := teamsOf_eq_of_ds g hds d tl hsort
    refine ⟨d, hfm, hmem, ?_, ?_, ?_⟩
    · show (teamsOf g).2.2 = some d
      rw [hteams]
    · show some (teamsOf g).1 = _
      rw [hteams, hfe]
    · show some (teamsOf g).2.1 = _
      rw [hteams, hfe]

/-- Witness for C6: the double-sider partition applied to the three-player
double-sider session. -/
theorem C6_partition_doubleSider_witness :
    (gTeamsDS.doubleSider = true ∧ (gTeamsDS.players.map Player.id).Nodup ∧
      gTeamsDS.players ≠ []) ∧
    (∃ ds : Player, firstMaxBySkill (selectedOf gTeamsDS) = some ds ∧
      ds ∈ selectedOf gTeamsDS ∧
      (gTeamsDS.generateSingleTeamMatch 1 Toss.A).1.doubleSider = some ds ∧
      (gTeamsDS.generateSingleTeamMatch 1 Toss.A).1.teamA
        = some ((snakeAux gTeamsDS.teamSize 0 [] []
            (List.insertionSort skillGE ((selectedOf gTeamsDS).erase ds))).1 ++ [ds]) ∧
      (gTeamsDS.generateSingleTeamMatch 1 Toss.A).1.teamB
        = some ((snakeAux gTeamsDS.teamSize 0 [] []
            (List.insertionSort skillGE ((selectedOf gTeamsDS).erase ds))).2 ++ [ds])) :=
  ⟨⟨by decide, by decide, by decide⟩,
    C6_partition_doubleSider gTeamsDS (by decide) (by decide) (by decide) 1 Toss.A⟩

/-! Singles rotation lemmas. -/

theorem rotateArray_mod {α : Type} (l : List α) (o : Nat) :
    rotateArray l (o % l.length) = rotateArray l o := by
  unfold rotateArray
  by_cases h : l.length = 0
  · rw [if_pos h, if_pos h]
  · rw [if_neg h, if_neg h, Nat.mod_mod_of_dvd]
    exact dvd_refl _

/-- Shape of one Singles match: the record built in the generation loop for
the 0-based index idx and the effective rotation offset. -/
def mkSinglesMatch (g : AIMatchGenerator) (idx off : Nat) : Match :=
  { id := idx + 1
    playersPlaying := rotateArray g.players off
    teamA := none
    teamB := none
    doubleSider := none
    tossWinner := none
    playerSequence := some (rotateArray g.players off)
    playersOut := []
    mode := g.mode }

theorem singlesAux_players :
    ∀ (n i off : Nat) (g : AIMatchGenerator),
      (singlesAux n i off g).2.players = g.players := by
  intro n
  induction n with
  | zero => intro i off g; rfl
  | succ n ih => intro i off g; exact ih (i + 1) _ _

theorem singlesAux_matches :
    ∀ (n i off : Nat) (g : AIMatchGenerator),
      (singlesAux n i off g).1.length = n ∧
      ∀ j, j < n → (singlesAux n i off g).1[j]? =
        some (mkSinglesMatch g (i + j) ((off + j) % g.players.length)) := by
  intro n
  induction n with
  | zero =>
    intro i off g
    exact ⟨rfl, fun j hj => absurd hj (Nat.not_lt_zero j)⟩
  | succ n ih =>
    intro i off g
    have hstep : (singlesAux (n + 1) i off g).1
        = mkSinglesMatch g i off ::
          (singlesAux n (i + 1) ((off + 1) % g.players.length)
            { g with
              playCount := applyIncs (fun _ => 1) g.playCount g.players
              previousMatches := g.previousMatches ++ [mkSinglesMatch g i off] }).1 := rfl
    set g1 : AIMatchGenerator :=
      { g with
        playCount := applyIncs (fun _ => 1) g.playCount g.players
        previousMatches := g.previousMatches ++ [mkSinglesMatch g i off] } with hg1
    have hplayers : g1.players = g.players := rfl
    obtain ⟨hlen, hget⟩ := ih (i + 1) ((off + 1) % g.players.length) g1
    constructor
    · rw [hstep, List.length_cons, hlen]
    · intro j hj
      rw [hstep]
      cases j with
      | zero =>
        rw [List.getElem?_cons_zero]
        have : rotateArray g.players ((off + 0) % g.players.length)
            = rotateArray g.players off := by
          rw [Nat.add_zero, rotateArray_mod]
        unfold mkSinglesMatch
        rw [Nat.add_zero, this]
      | succ j =>
        rw [List.getElem?_cons_succ]
        have hj2 : j < n := Nat.lt_of_succ_lt_succ hj
        rw [hget j hj2]
        have hoff : ((off + 1) % g.players.length + j) % g1.players.length
            = (off + (j + 1)) % g.players.length := by
          rw [hplayers, Nat.mod_add_mod]
          congr 1
          omega
        have hidx : i + 1 + j = i + (j + 1) := by omega
        unfold mkSinglesMatch
        rw [hoff, hidx, hplayers]

theorem singlesAux_playCount :
    ∀ (n i off : Nat) (g : AIMatchGenerator),
      (g.players.map Player.id).Nodup →
      ∀ p ∈ g.players,
        getCount (singlesAux n i off g).2.playCount p.id
          = getCount g.playCount p.id + n := by
  intro n
  induction n with
  | zero => intro i off g _ p _; rfl
  | succ n ih =>
    intro i off g hnd p hp
    set g1 : AIMatchGenerator :=
      { g with
        playCount := applyIncs (fun _ => 1) g.playCount g.players
        previousMatches := g.previousMatches ++
          [{ id := i + 1
             playersPlaying := rotateArray g.players off
             teamA := none
             teamB := none
             doubleSider := none
             tossWinner := none
             playerSequence := some (rotateArray g.players off)
             playersOut := []
             mode := g.mode }] } with hg1
    have hstep : (singlesAux (n + 1) i off g).2
        = (singlesAux n (i + 1) ((off + 1) % g.players.length) g1).2 := rfl
    rw [hstep]
    have h1 := ih (i + 1) ((off + 1) % g.players.length) g1 hnd p hp
    rw [h1]
    have h2 : getCount g1.playCount p.id = getCount g.playCount p.id + 1 := by
      show getCount (applyIncs (fun _ => 1) g.playCount g.players) p.id = _
      rw [getCount_applyIncs_of_mem _ p _ _ hnd hp]
    rw [h2]
    omega

/-- C7: over a fresh Singles session on a roster of size at least 1 with
unique ids, a batch of M matches has the j-th match (0-based) carrying the
cyclic left rotation of the roster by j mod N as its sequence, every sequence
a permutation of the whole roster, an empty sitting-out list everywhere, and
a final play count of exactly M for every player. -/
theorem C7_singles_rotation (players : List Player) (ts : Nat) (dsf : Bool)
    (key : String) (M : Nat) (api : Except String GroqMatchResponse)
    (toss : Nat → Toss) (h1 : 1 ≤ players.length)
    (hnd : (players.map Player.id).Nodup) :
    ((AIMatchGenerator.init players Mode.Singles ts dsf key).generateMatches
        M api toss).1.length = M ∧
    (∀ j, j < M →
      ((AIMatchGenerator.init players Mode.Singles ts dsf key).generateMatches
          M api toss).1[j]? =
        some (mkSinglesMatch (AIMatchGenerator.init players Mode.Singles ts dsf key)
          j (j % players.length))) ∧
    (∀ j, (rotateArray players (j % players.length)).Perm players) ∧
    (∀ p ∈ players,
      getCount ((AIMatchGenerator.init players Mode.Singles ts dsf key).generateMatches
          M api toss).2.playCount p.id = M) := by
  set g0 : AIMatchGenerator :=
    AIMatchGenerator.init players Mode.Singles ts dsf key with hg0
  have hdispatch : g0.generateMatches M api toss = singlesAux M 0 0 g0 := rfl
  have hplayers : g0.players = players := rfl
  obtain ⟨hlen, hget⟩ := singlesAux_matches M 0 0 g0
  refine ⟨by rw [hdispatch, hlen], ?_, ?_, ?_⟩
  · intro j hj
    rw [hdispatch, hget j hj]
    rw [hplayers]
    simp only [Nat.zero_add]
  · intro j
    exact rotateArray_perm players _
  · intro p hp
    rw [hdispatch]
    have := singlesAux_playCount M 0 0 g0 (by rw [hplayers]; exact hnd)
      p (by rw [hplayers]; exact hp)
    rw [this]
    have hz : getCount g0.playCount p.id = 0 := getCount_init players _ _ _ _ _
    rw [hz]
    omega

/-- Witness for C7: the rotation contract applied to the three-player Singles
session for a 3-match batch. -/
theorem C7_singles_rotation_witness :
    (1 ≤ rosterXYZ.length ∧ (rosterXYZ.map Player.id).Nodup) ∧
    (((AIMatchGenerator.init rosterXYZ Mode.Singles 2 false "").generateMatches
        3 (.error "ignored") tossConstA).1.length = 3 ∧
    (∀ j, j < 3 →
      ((AIMatchGenerator.init rosterXYZ Mode.Singles 2 false "").generateMatches
          3 (.error "ignored") tossConstA).1[j]? =
        some (mkSinglesMatch (AIMatchGenerator.init rosterXYZ Mode.Singles 2 false "")
          j (j % rosterXYZ.length))) ∧
    (∀ j, (rotateArray rosterXYZ (j % rosterXYZ.length)).Perm rosterXYZ) ∧
    (∀ p ∈ rosterXYZ,
      getCount ((AIMatchGenerator.init rosterXYZ Mode.Singles 2 false "").generateMatches
          3 (.error "ignored") tossConstA).2.playCount p.id = 3)) :=
  ⟨⟨by decide, by decide⟩,
    C7_singles_rotation rosterXYZ 2 false "" 3 (.error "ignored") tossConstA
      (by decide) (by decide)⟩

/-! Remaining fixtures. -/

/-- Two players of equal skill, ids a b: too few for teamSize 2. -/
def rosterAB : List Player :=
  [{ id := "a", name := "A", skillLevel := 5 },
   { id := "b", name := "B", skillLevel := 5 }]

/-- Teams session whose roster (2 players) is below the required count 4. -/
def gTeamsSmall : AIMatchGenerator :=
  AIMatchGenerator.init rosterAB Mode.Teams 2 false ""

/-- Boolean error test on a parse result. -/
def isErrorResult (r : Except String (List Match)) : Bool :=
  match r with
  | .error _ => true
  | .ok _ => false

/-- Delegated response whose first entry is well formed and whose second
entry lacks the playersOut field, making the parse throw after the first
iteration has already updated the play counts. -/
def respSecondEntryBad : GroqMatchResponse :=
  { matchList :=
      [{ matchNumber := 1
         teamA := some ["a", "b"]
         teamB := some ["c", "d"]
         doubleSider := none
         playersOut := some []
         tossWinner := some Toss.A },
       { matchNumber := 2
         teamA := some ["a", "b"]
         teamB := some ["c", "d"]
         doubleSider := none
         playersOut := none
         tossWinner := some Toss.A }] }

/-- Delegated response referencing the unknown player id zzz in teamA. -/
def respUnknownId : GroqMatchResponse :=
  { matchList :=
      [{ matchNumber := 1
         teamA := some ["a", "zzz"]
         teamB := some ["c", "d"]
         doubleSider := none
         playersOut := some []
         tossWinner := some Toss.A }] }

/-- C1, evaluation at the failing input: on a roster of 2 with a required
count of 4, a Teams generateMatches call (delegation failing, deterministic
path) does not fail; it returns a match with silently truncated one-player
teams and mutates the play counts of both players. -/
theorem C1_truncation_at_failing_input :
    requiredCountOf gTeamsSmall = 4 ∧ gTeamsSmall.players.length = 2 ∧
    (gTeamsSmall.generateMatches 1 (.error "no credential") tossConstA).1.map
      (fun m => (m.teamA.map List.length, m.teamB.map List.length))
      = [(some 1, some 1)] ∧
    getCount (gTeamsSmall.generateMatches 1
      (.error "no credential") tossConstA).2.playCount "a" = 1 ∧
    getCount gTeamsSmall.playCount "a" = 0 := by
  decide

/-- C3, evaluation at the failing input: a response whose second entry is
malformed makes the parse fail after the first entry has mutated the play
counts, so the fallback that answers the same call starts from a state
different from the pre-call state and the final counts differ from those of
a pure deterministic batch over the same session. -/
theorem C3_midparse_mutation_at_failing_input :
    isErrorResult (parseGroqLoop gTeams4 respSecondEntryBad.matchList).1 = true ∧
    getCount (parseGroqLoop gTeams4 respSecondEntryBad.matchList).2.playCount "a" = 1 ∧
    getCount gTeams4.playCount "a" = 0 ∧
    getCount (gTeams4.generateTeamsMatchesWithAI 2
      (.ok respSecondEntryBad) tossConstA).2.playCount "a" = 3 ∧
    getCount (gTeams4.generateTeamsMatchesFallback 2 tossConstA).2.playCount "a" = 2 := by
  decide

/-- C4, amended statement: a transport error, a non-success status or an
unparsable body (all modelled by the error case of the externalized call)
makes the entire batch come from the deterministic fallback, with no error
surfaced (the call returns normally); this holds for the Teams entry point
and for the delegation wrapper itself. -/
theorem C4_error_falls_back (g : AIMatchGenerator) (n : Nat) (e : String)
    (toss : Nat → Toss) (hm : g.mode = Mode.Teams) :
    g.generateMatches n (.error e) toss = g.generateTeamsMatchesFallback n toss ∧
    g.generateTeamsMatchesWithAI n (.error e) toss
      = g.generateTeamsMatchesFallback n toss := by
  constructor
  · show (match g.mode with
      | Mode.Singles => g.generateSinglesMatches n
      | Mode.Teams => g.generateTeamsMatchesWithAI n (.error e) toss)
        = g.generateTeamsMatchesFallback n toss
    rw [hm]
    rfl
  · rfl

/-- Witness for C4: the fallback equality applied to the 4-player Teams
session. -/
theorem C4_error_falls_back_witness :
    gTeams4.mode = Mode.Teams ∧
    (gTeams4.generateMatches 2 (.error "HTTP 401") tossConstA
        = gTeams4.generateTeamsMatchesFallback 2 tossConstA ∧
      gTeams4.generateTeamsMatchesWithAI 2 (.error "HTTP 401") tossConstA
        = gTeams4.generateTeamsMatchesFallback 2 tossConstA) :=
  ⟨by decide, C4_error_falls_back gTeams4 2 "HTTP 401" tossConstA (by decide)⟩

/-- Counterexample to C4 as stated: a response referencing an id absent from
the roster is not treated as a delegation failure; the unknown id is silently
dropped (teamA keeps only player a) and the returned batch is the parsed one,
visibly different from what the deterministic algorithm produces for the same
call (two-player teams). -/
theorem C4_counterexample :
    ((gTeams4.generateTeamsMatchesWithAI 1 (.ok respUnknownId) tossConstA).1.map
      (fun m => m.teamA.map (fun l => l.map Player.id))) = [some ["a"]] ∧
    ((gTeams4.generateTeamsMatchesFallback 1 tossConstA).1.map
      (fun m => m.teamA.map List.length)) = [some 2] := by
  decide

/-- C10: the legacy MatchGenerator constructor builds exactly the
AIMatchGenerator state with the default credential and overrides nothing, so
generateMatches behaves identically, and in Teams mode the legacy entry point
routes through the delegation wrapper (attempting the external path before
any fallback). -/
theorem C10_legacy_equiv (players : List Player) (mode : Mode) (ts : Nat)
    (dsf : Bool) (n : Nat) (api : Except String GroqMatchResponse)
    (toss : Nat → Toss) (hm : mode = Mode.Teams) :
    MatchGenerator.init players mode ts dsf
      = AIMatchGenerator.init players mode ts dsf defaultGroqApiKey ∧
    (MatchGenerator.init players mode ts dsf).generateMatches n api toss
      = (AIMatchGenerator.init players mode ts dsf
          defaultGroqApiKey).generateMatches n api toss ∧
    (MatchGenerator.init players mode ts dsf).generateMatches n api toss
      = (MatchGenerator.init players mode ts dsf).generateTeamsMatchesWithAI
          n api toss := by
  subst hm
  exact ⟨rfl, rfl, rfl⟩

/-- Witness for C10: the legacy equivalence applied to the 4-player roster in
Teams mode. -/
theorem C10_legacy_equiv_witness :
    (Mode.Teams = Mode.Teams) ∧
    (MatchGenerator.init rosterABCD Mode.Teams 2 false
      = AIMatchGenerator.init rosterABCD Mode.Teams 2 false defaultGroqApiKey ∧
    (MatchGenerator.init rosterABCD Mode.Teams 2 false).generateMatches 1
        (.error "transport failure") tossConstA
      = (AIMatchGenerator.init rosterABCD Mode.Teams 2 false
          defaultGroqApiKey).generateMatches 1
          (.error "transport failure") tossConstA ∧
    (MatchGenerator.init rosterABCD Mode.Teams 2 false).generateMatches 1
        (.error "transport failure") tossConstA
      = (MatchGenerator.init rosterABCD Mode.Teams 2 false).generateTeamsMatchesWithAI
          1 (.error "transport failure") tossConstA) :=
  ⟨rfl, by
    have h := C10_legacy_equiv rosterABCD Mode.Teams 2 false 1
      (.error "transport failure") tossConstA rfl
    exact ⟨h.1, h.2.1, h.2.2⟩⟩

/-! Truncation behavior of an insufficient roster. -/

theorem generateMatches_teams_error (g : AIMatchGenerator) (n : Nat)
    (e : String) (toss : Nat → Toss) (hm : g.mode = Mode.Teams) :
    g.generateMatches n (.error e) toss
      = g.generateTeamsMatchesFallback n toss := by
  show (match g.mode with
    | Mode.Singles => g.generateSinglesMatches n
    | Mode.Teams => g.generateTeamsMatchesWithAI n (.error e) toss)
      = g.generateTeamsMatchesFallback n toss
  rw [hm]
  rfl

theorem fallbackAux_length (toss : Nat → Toss) :
    ∀ (n i : Nat) (g : AIMatchGenerator),
      (fallbackAux toss n i g).1.length = n := by
  intro n
  induction n with
  | zero => intro i g; rfl
  | succ n ih =>
    intro i g
    show ((fallbackAux toss (n + 1) i g).1).length = n + 1
    rw [fallbackAux]
    rw [List.length_cons]
    rw [ih]

theorem selectedOf_all_of_small (g : AIMatchGenerator)
    (hsmall : g.players.length ≤ requiredCountOf g) :
    (selectedOf g).length = g.players.length ∧
      ∀ p ∈ g.players, p ∈ selectedOf g := by
  have hlen : (selectedOf g).length = g.players.length := by
    unfold selectedOf
    rw [length_selectPlayersForMatch, min_eq_right hsmall]
  constructor
  · exact hlen
  · intro p hp
    unfold selectedOf AIMatchGenerator.selectPlayersForMatch
    have hsortlen : (List.insertionSort (fairLE g) g.players).length
        = g.players.length := List.length_insertionSort _ _
    have htake : (List.insertionSort (fairLE g) g.players).take
        (min (requiredCountOf g) (List.insertionSort (fairLE g) g.players).length)
        = List.insertionSort (fairLE g) g.players := by
      refine List.take_of_length_le ?_
      rw [hsortlen]
      exact Nat.le_min.mpr ⟨hsmall, Nat.le_refl _⟩
    rw [htake]
    exact (List.perm_insertionSort (fairLE g) g.players).mem_iff.mpr hp

/-- C1, amended statement: generateMatches performs no roster-size
precondition check. On a Teams session whose roster is smaller than the
required count, the call (deterministic path) returns normally with the full
requested number of matches; every match simply takes the entire roster as
its playing pool (teams silently truncated below teamSize) with an empty
sit-out list — the InsufficientPlayers rejection lives in the UI collaborator
(validateInputs in src/app/page.tsx), which checks the roster before invoking
the generator. -/
theorem C1_no_precondition_check (g : AIMatchGenerator) (n : Nat) (e : String)
    (toss : Nat → Toss) (hm : g.mode = Mode.Teams)
    (hsmall : g.players.length < requiredCountOf g) :
    (g.generateMatches n (.error e) toss).1.length = n ∧
    ∀ m ∈ (g.generateMatches n (.error e) toss).1,
      m.playersPlaying.length = g.players.length ∧
      (∀ p ∈ g.players, p ∈ m.playersPlaying) ∧
      m.playersOut = [] := by
  rw [generateMatches_teams_error g n e toss hm]
  constructor
  · exact fallbackAux_length toss n 0 g
  · intro m hm2
    obtain ⟨g0, k, t, heq, hp, ht, hd, _⟩ :=
      fallbackAux_matches_from toss n 0 g m hm2
    have hsmall0 : g0.players.length ≤ requiredCountOf g0 := by
      unfold requiredCountOf
      rw [hp, ht, hd]
      exact Nat.le_of_lt hsmall
    obtain ⟨hlen0, hmem0⟩ := selectedOf_all_of_small g0 hsmall0
    have hPP : m.playersPlaying = selectedOf g0 := by rw [heq]; rfl
    have hPO : m.playersOut = playersOutOf g0 := by rw [heq]; rfl
    refine ⟨by rw [hPP, hlen0, hp], ?_, ?_⟩
    · intro p hpmem
      rw [hPP]
      exact hmem0 p (by rw [hp]; exact hpmem)
    · rw [hPO]
      unfold playersOutOf
      rw [List.filter_eq_nil_iff]
      intro p hpmem
      simp only [decide_not]
      have hin : p ∈ selectedOf g0 := hmem0 p hpmem
      have : (selectedOf g0).any (fun s => s.id == p.id) = true :=
        List.any_eq_true.mpr ⟨p, hin, by simp⟩
      simp [this]

/-- Witness for C1: the truncation behavior applied to the two-player
teamSize 2 session. -/
theorem C1_no_precondition_check_witness :
    (gTeamsSmall.mode = Mode.Teams ∧
      gTeamsSmall.players.length < requiredCountOf gTeamsSmall) ∧
    ((gTeamsSmall.generateMatches 1 (.error "no credential") tossConstA).1.length = 1 ∧
    ∀ m ∈ (gTeamsSmall.generateMatches 1 (.error "no credential") tossConstA).1,
      m.playersPlaying.length = gTeamsSmall.players.length ∧
      (∀ p ∈ gTeamsSmall.players, p ∈ m.playersPlaying) ∧
      m.playersOut = []) :=
  ⟨⟨by decide, by decide⟩,
    C1_no_precondition_check gTeamsSmall 1 "no credential" tossConstA
      (by decide) (by decide)⟩
